import Mathlib

/-
Verification development for the SatyaCheck analysis pipeline (main.py).

The embedding models the three helper functions of the source file —
`get_text_from_url`, `get_ai_analysis`, `display_analysis_report` — together
with the tab handlers and the startup block.  External library behaviour that
the source relies on is embedded at its interface:

* `json.loads` is modelled by an executable JSON parser over a `JVal` type
  (objects are Python dicts: duplicate keys overwrite in place, lookup is by
  key; integer literals become `jint`, other numeric literals are kept as
  their text in `jfloat`).
* Python string operations `str.strip` and `str.replace` (all occurrences,
  leftmost first, non-overlapping) are modelled over `List Char`.
* Python truthiness, `in`, subscription and iteration on the JSON values that
  `json.loads` can return are modelled by `pyTruthy`, `pyContains`,
  `pySubscript` and `pyIter`; the cases on which Python raises `TypeError`
  return `none`.
* The generative-model call is a parameter `gen : List GenPart → ModelOutcome`;
  an exception anywhere in the call (network, auth, quota, blocked response)
  is the `ModelOutcome.exc` case.
* The HTTP fetch is a parameter of type `HttpOutcome`: either a transport
  failure (an exception from `requests.get`) or a delivered response with a
  status code and the text of each paragraph element found by the HTML parser.
-/

/-- A JSON value as produced by `json.loads`.  `jint` is a Python `int`
(integer literal without fraction or exponent); `jfloat` keeps the numeric
literal verbatim for any other JSON number.  `jobj` entries are in Python
dict order with unique keys when produced by the parser. -/
inductive JVal where
  | jnull
  | jbool (b : Bool)
  | jint (n : Int)
  | jfloat (lit : String)
  | jstr (s : String)
  | jarr (elems : List JVal)
  | jobj (entries : List (String × JVal))
deriving Repr

/-- First binding of a key in an association list (Python dict lookup; the
parser keeps keys unique, mirroring dict construction). -/
def dictFind (kvs : List (String × JVal)) (k : String) : Option JVal :=
  match kvs with
  | [] => none
  | (k', v) :: rest => if k' = k then some v else dictFind rest k

/-- Python `dict.get(k, d)`. -/
def dictGet (kvs : List (String × JVal)) (k : String) (d : JVal) : JVal :=
  (dictFind kvs k).getD d

/-- Python `k in d` for a dict. -/
def hasKey (kvs : List (String × JVal)) (k : String) : Bool :=
  (dictFind kvs k).isSome

/-- Python dict insertion: an existing key is overwritten in place, a new key
is appended (insertion order preserved). -/
def insertKey (kvs : List (String × JVal)) (k : String) (v : JVal) :
    List (String × JVal) :=
  match kvs with
  | [] => [(k, v)]
  | (k', v') :: rest =>
    if k' = k then (k', v) :: rest else (k', v') :: insertKey rest k v

/-- Whether pattern `p` occurs as a contiguous substring of `s`
(Python `p in s` for strings). -/
def listContains (p : List Char) : List Char → Bool
  | [] => p.isEmpty
  | c :: cs => p.isPrefixOf (c :: cs) || listContains p cs

/-- Python truthiness of a JSON value.  (A float literal is truthy when its
mantissa has a nonzero digit; double underflow to 0.0 is not modelled.) -/
def pyTruthy : JVal → Bool
  | .jnull => false
  | .jbool b => b
  | .jint n => decide (n ≠ 0)
  | .jfloat lit =>
    (lit.toList.takeWhile (fun c => !(c == 'e' || c == 'E'))).any
      (fun c => c.isDigit && c != '0')
  | .jstr s => !s.isEmpty
  | .jarr xs => !xs.isEmpty
  | .jobj kvs => !kvs.isEmpty

/-- Python `k in v` for the values `json.loads` can return: key test for a
dict, substring test for a string, membership (string equality) for a list;
`none` where Python raises `TypeError` (int, float, bool, None). -/
def pyContains (v : JVal) (k : String) : Option Bool :=
  match v with
  | .jobj kvs => some (hasKey kvs k)
  | .jstr s => some (listContains k.toList s.toList)
  | .jarr xs => some (xs.any (fun x => match x with
      | .jstr s => s == k
      | _ => false))
  | _ => none

/-- Python `v[k]` for a string key: dict subscription; `none` where Python
raises (`TypeError` on non-dicts, `KeyError` on a missing key). -/
def pySubscript (v : JVal) (k : String) : Option JVal :=
  match v with
  | .jobj kvs => dictFind kvs k
  | _ => none

/-- Python iteration over the values `json.loads` can return: a list yields
its elements, a string its characters (as 1-character strings), a dict its
keys; `none` where Python raises `TypeError`. -/
def pyIter (v : JVal) : Option (List JVal) :=
  match v with
  | .jarr xs => some xs
  | .jstr s => some (s.toList.map (fun c => JVal.jstr (String.mk [c])))
  | .jobj kvs => some (kvs.map (fun kv => JVal.jstr kv.1))
  | _ => none

/-- JSON whitespace (the characters `json.loads` skips between tokens). -/
def isJwsChar (c : Char) : Bool :=
  c == ' ' || c == '\t' || c == '\n' || c == '\r'

/-- ASCII whitespace stripped by Python `str.strip()` (JSON whitespace plus
vertical tab and form feed; Unicode spaces are not modelled). -/
def isPwsChar (c : Char) : Bool :=
  isJwsChar c || c == '\x0b' || c == '\x0c'

/-- Remove the longest suffix of characters satisfying `f`. -/
def trimEndF (f : Char → Bool) (l : List Char) : List Char :=
  (l.reverse.dropWhile f).reverse

/-- Python `str.strip()` over the character list. -/
def pyStrip (l : List Char) : List Char :=
  trimEndF isPwsChar (l.dropWhile isPwsChar)

/-- Python `str.replace(p, r)`: replace every occurrence of `p`, scanning left
to right, non-overlapping.  (The source never calls it with an empty pattern;
an empty pattern leaves the string unchanged here.) -/
def replaceLF (p r : List Char) : Nat → List Char → List Char
  | 0, s => s
  | _ + 1, [] => []
  | f + 1, c :: cs =>
    if p ≠ [] ∧ p.isPrefixOf (c :: cs) = true then
      r ++ replaceLF p r f (cs.drop (p.length - 1))
    else
      c :: replaceLF p r f cs

/-- Python `str.replace(p, r)` proper: enough fuel is supplied up front (each
step consumes at least one character). -/
def replaceL (p r : List Char) (s : List Char) : List Char :=
  replaceLF p r s.length s

/-- The code-fence stripping of `get_ai_analysis`:
`response.text.strip().replace("```json", "").replace("```", "")`. -/
def stripFencesList (l : List Char) : List Char :=
  replaceL "```".toList [] (replaceL "```json".toList [] (pyStrip l))

/-- String-level wrapper for the fence stripping. -/
def stripFences (s : String) : String :=
  String.mk (stripFencesList s.toList)

/-- A model response wrapped in a triple-backtick JSON code fence. -/
def wrapFences (s : String) : String :=
  "```json\n" ++ s ++ "\n```"

/-- Skip leading JSON whitespace. -/
def skipWs (l : List Char) : List Char :=
  l.dropWhile isJwsChar

/-- Value of a decimal digit list. -/
def digitsVal (l : List Char) : Nat :=
  l.foldl (fun a c => 10 * a + (c.toNat - 48)) 0

/-- Value of a hexadecimal digit. -/
def hexVal (c : Char) : Nat :=
  if c.isDigit then c.toNat - 48
  else if 'a' ≤ c ∧ c ≤ 'f' then c.toNat - 87
  else c.toNat - 55

/-- Hexadecimal digit test. -/
def isHexDigitC (c : Char) : Bool :=
  c.isDigit || (decide ('a' ≤ c) && decide (c ≤ 'f')) ||
    (decide ('A' ≤ c) && decide (c ≤ 'F'))

/-- The single-character JSON string escapes. -/
def escChar : Char → Option Char
  | '\x22' => some '\x22'
  | '\\' => some '\\'
  | '/' => some '/'
  | 'b' => some '\x08'
  | 'f' => some '\x0c'
  | 'n' => some '\n'
  | 'r' => some '\r'
  | 't' => some '\t'
  | _ => none

/-- Parse the body of a JSON string after the opening quote, returning the
decoded characters and the remainder after the closing quote.  `\uXXXX`
escapes become the code point (surrogate pairs are not combined); raw control
characters are rejected as in strict `json.loads`. -/
def parseStrInner : List Char → Option (List Char × List Char)
  | [] => none
  | '\x22' :: r => some ([], r)
  | '\\' :: 'u' :: h1 :: h2 :: h3 :: h4 :: r =>
    if isHexDigitC h1 && isHexDigitC h2 && isHexDigitC h3 && isHexDigitC h4 then
      (parseStrInner r).map (fun p =>
        (Char.ofNat (((hexVal h1 * 16 + hexVal h2) * 16 + hexVal h3) * 16 +
          hexVal h4) :: p.1, p.2))
    else none
  | '\\' :: c :: r =>
    match escChar c with
    | some d => (parseStrInner r).map (fun p => (d :: p.1, p.2))
    | none => none
  | c :: r =>
    if 32 ≤ c.toNat then (parseStrInner r).map (fun p => (c :: p.1, p.2))
    else none

/-- Parse a JSON number (grammar `-?(0|[1-9][0-9]*)(\.[0-9]+)?([eE][+-]?[0-9]+)?`),
yielding `jint` for a plain integer literal and `jfloat` (literal kept
verbatim) otherwise, as `json.loads` yields `int` or `float`. -/
def parseNum (s : List Char) : Option (JVal × List Char) :=
  let neg : Bool := match s with | '-' :: _ => true | _ => false
  let s1 := match s with | '-' :: r => r | _ => s
  match s1 with
  | [] => none
  | c :: _ =>
    if c.isDigit then
      let ip : List Char := if c = '0' then ['0'] else s1.takeWhile Char.isDigit
      let r1 := s1.drop ip.length
      let fp : List Char := match r1 with
        | '.' :: r =>
          let ds := r.takeWhile Char.isDigit
          if ds.isEmpty then [] else '.' :: ds
        | _ => []
      let r2 := r1.drop fp.length
      let ep : List Char := match r2 with
        | e :: r =>
          if e == 'e' || e == 'E' then
            let sg : List Char := match r with
              | '+' :: _ => ['+'] | '-' :: _ => ['-'] | _ => []
            let ds := (r.drop sg.length).takeWhile Char.isDigit
            if ds.isEmpty then [] else e :: (sg ++ ds)
          else []
        | _ => []
      let r3 := r2.drop ep.length
      if fp.isEmpty && ep.isEmpty then
        some (JVal.jint (if neg then -(digitsVal ip : Int) else (digitsVal ip : Int)), r1)
      else
        some (JVal.jfloat (String.mk ((if neg then ['-'] else []) ++ ip ++ fp ++ ep)), r3)
    else none

/-- Rebuild a Python dict from parsed members in order (later duplicate keys
overwrite in place). -/
def dedupKeys (ms : List (String × JVal)) : List (String × JVal) :=
  ms.foldl (fun acc kv => insertKey acc kv.1 kv.2) []

mutual

/-- Recursive-descent JSON value parser (fuel-indexed); the input starts at a
value (leading whitespace already skipped), the remainder starts right after
the value. -/
def parseVal : Nat → List Char → Option (JVal × List Char)
  | 0, _ => none
  | _ + 1, [] => none
  | f + 1, c :: cs =>
    match c, cs with
    | 'n', 'u' :: 'l' :: 'l' :: r => some (JVal.jnull, r)
    | 't', 'r' :: 'u' :: 'e' :: r => some (JVal.jbool true, r)
    | 'f', 'a' :: 'l' :: 's' :: 'e' :: r => some (JVal.jbool false, r)
    | '\x22', _ =>
      (parseStrInner cs).map (fun p => (JVal.jstr (String.mk p.1), p.2))
    | '[', _ =>
      match skipWs cs with
      | ']' :: r2 => some (JVal.jarr [], r2)
      | r1 => (parseItems f r1).map (fun p => (JVal.jarr p.1, p.2))
    | '\x7b', _ =>
      match skipWs cs with
      | '\x7d' :: r2 => some (JVal.jobj [], r2)
      | r1 => (parseMembers f r1).map (fun p => (JVal.jobj (dedupKeys p.1), p.2))
    | _, _ =>
      if c.isDigit || c = '-' then parseNum (c :: cs) else none

/-- Parse the comma-separated items of a nonempty JSON array, consuming the
closing bracket. -/
def parseItems : Nat → List Char → Option (List JVal × List Char)
  | 0, _ => none
  | f + 1, s =>
    match parseVal f s with
    | none => none
    | some (v, r1) =>
      match skipWs r1 with
      | ']' :: r2 => some ([v], r2)
      | ',' :: r2 =>
        match parseItems f (skipWs r2) with
        | none => none
        | some (vs, r3) => some (v :: vs, r3)
      | _ => none

/-- Parse the comma-separated members of a nonempty JSON object, consuming the
closing brace. -/
def parseMembers : Nat → List Char → Option (List (String × JVal) × List Char)
  | 0, _ => none
  | f + 1, s =>
    match s with
    | '\x22' :: r =>
      match parseStrInner r with
      | none => none
      | some (kcs, r1) =>
        match skipWs r1 with
        | ':' :: r2 =>
          match parseVal f (skipWs r2) with
          | none => none
          | some (v, r3) =>
            match skipWs r3 with
            | '\x7d' :: r4 => some ([(String.mk kcs, v)], r4)
            | ',' :: r4 =>
              match parseMembers f (skipWs r4) with
              | none => none
              | some (ms, r5) => some ((String.mk kcs, v) :: ms, r5)
            | _ => none
        | _ => none
    | _ => none

end

/-- Remove trailing JSON whitespace. -/
def jTrimEnd (l : List Char) : List Char :=
  trimEndF isJwsChar l

/-- `json.loads` on a character list: surrounding whitespace is immaterial,
then exactly one JSON value must span the input.  (Trailing whitespace is
normalised away before parsing, which is equivalent to allowing it after the
value.) -/
def parseJsonList (l : List Char) : Option JVal :=
  let m := skipWs (jTrimEnd l)
  match parseVal (2 * m.length + 2) m with
  | some (v, []) => some v
  | _ => none

/-- `json.loads` on a string. -/
def parseJson (s : String) : Option JVal :=
  parseJsonList s.toList

/-- Image data attached to a multimodal request (opaque bytes). -/
structure ImageData where
  bytes : List Nat
deriving Repr

/-- One element of the content list passed to `model.generate_content`. -/
inductive GenPart where
  | textPart (s : String)
  | imagePart (img : ImageData)

/-- Outcome of the `model.generate_content` call followed by `response.text`:
either the raw text of the model response, or an exception (network, auth,
quota, blocked response, ...) carrying its `str(e)`. -/
inductive ModelOutcome where
  | ok (text : String)
  | exc (msg : String)

/-- The f-string prompt template of `get_ai_analysis`. -/
def prompt_template (text_prompt : String) : String :=
  "\n    As an expert misinformation analyst specializing in the Indian context, analyze the provided content. If the content is an image, describe it, extract any text, and then analyze. Your goal is to identify red flags and educate the user. Do not give a simple true/false verdict.\n    Content to analyze: --- "
  ++ text_prompt ++
  " ---\n    Provide your analysis ONLY in a structured JSON format with keys: \"credibility_score\", \"summary\", \"red_flags\", \"educational_insight\". The \"red_flags\" key must be a list of JSON objects, where each object has a \"flag_type\" and a \"description\".\n    "

/-- `request_content = [prompt_template, image] if image else [prompt_template]`. -/
def requestContent (text_prompt : String) (image : Option ImageData) : List GenPart :=
  match image with
  | some img => [GenPart.textPart (prompt_template text_prompt), GenPart.imagePart img]
  | none => [GenPart.textPart (prompt_template text_prompt)]

/-- Modelled from the spec: the human-readable cause string of the JSON
library's decode error for an unparseable text (`str(e)` of the
`json.JSONDecodeError`); only its presence matters to the pipeline. -/
def jsonDecodeDetails (txt : String) : String :=
  "Expecting value: could not parse as JSON: " ++ txt

/-- The fixed-prefix failure message of `get_ai_analysis`
(`f"AI analysis failed. The model response was not valid JSON. Details: ..."`). -/
def aiFailureMsg (details : String) : String :=
  "AI analysis failed. The model response was not valid JSON. Details: " ++ details

/-- The failure message produced for a given call outcome: the exception's
text for a raised call, the JSON decode error for an unparseable response. -/
def failureMessageOf (o : ModelOutcome) : String :=
  match o with
  | .exc e => aiFailureMsg e
  | .ok txt => aiFailureMsg (jsonDecodeDetails (stripFences txt))

/-- `get_ai_analysis`: build the prompt (plus optional image), invoke the
model, strip code fences and parse JSON; any exception — from the call or
from parsing — is caught and turned into `{"error": ...}`. -/
def get_ai_analysis (gen : List GenPart → ModelOutcome)
    (text_prompt : String) (image : Option ImageData) : JVal :=
  match gen (requestContent text_prompt image) with
  | .exc e => JVal.jobj [("error", JVal.jstr (aiFailureMsg e))]
  | .ok txt =>
    match parseJson (stripFences txt) with
    | some v => v
    | none =>
      JVal.jobj [("error", JVal.jstr (aiFailureMsg (jsonDecodeDetails (stripFences txt))))]

/-- One rendered red flag: the displayed `flag_type` and `description` values. -/
def renderFlag (flag : JVal) : Option (JVal × JVal) :=
  match flag with
  | .jobj kvs =>
    some (dictGet kvs "flag_type" (JVal.jstr "General Flag"),
          dictGet kvs "description" (JVal.jstr "No description provided."))
  | .jstr s => some (JVal.jstr "General Flag", JVal.jstr s)
  | _ => none

/-- What the red-flags section of the report shows: the no-flags success
message (falsy `red_flags`), or the list of rendered flags. -/
inductive FlagsRender where
  | noFlagsMessage
  | flagList (flags : List (JVal × JVal))
deriving Repr

/-- The `if red_flags: for flag in red_flags: ...` block of
`display_analysis_report`; `none` when iterating a truthy non-iterable
raises `TypeError`.  Entries that are neither dict nor str render nothing
(the loop has no branch for them). -/
def flagsOut (rf : JVal) : Option FlagsRender :=
  if pyTruthy rf then
    match pyIter rf with
    | none => none
    | some items => some (.flagList (items.filterMap renderFlag))
  else some .noFlagsMessage

/-- Outcome of `display_analysis_report`: the error banner, a completed
report (success record), or an uncaught exception while rendering. -/
inductive DisplayOut where
  | errorShown (msg : JVal)
  | report (credibilityScore summary : JVal) (flags : FlagsRender)
      (educationalInsight : JVal)
  | crash
deriving Repr

/-- `display_analysis_report`: show the error banner when `"error" in result`,
otherwise read the four fields with their defaults and render the report;
Python `TypeError`s (non-dict results, truthy non-iterable `red_flags`)
surface as `crash`. -/
def display_analysis_report (v : JVal) : DisplayOut :=
  match pyContains v "error" with
  | none => .crash
  | some true =>
    match pySubscript v "error" with
    | none => .crash
    | some m => .errorShown m
  | some false =>
    match v with
    | .jobj kvs =>
      let score := dictGet kvs "credibility_score" (JVal.jint 0)
      let summary := dictGet kvs "summary" (JVal.jstr "No summary available.")
      let rf := dictGet kvs "red_flags" (JVal.jarr [])
      match flagsOut rf with
      | none => .crash
      | some fo =>
        .report score summary fo
          (dictGet kvs "educational_insight" (JVal.jstr "No educational insight available."))
    | _ => .crash

/-- Whether the display outcome is the failure record (error banner). -/
def isFailureRec (d : DisplayOut) : Bool :=
  match d with
  | .errorShown _ => true
  | _ => false

/-- Whether the display outcome is a success record (completed report). -/
def isSuccessRec (d : DisplayOut) : Bool :=
  match d with
  | .report _ _ _ _ => true
  | _ => false

/-- The three request variants reaching the analysis pipeline: typed text,
URL text already resolved by the fetcher, or an uploaded image (the image
instruction string is fixed in the source). -/
inductive AnalysisRequest where
  | text (body : String)
  | url (resolvedText : String)
  | image (img : ImageData)

/-- The prompt text the tab handlers pass to `get_ai_analysis`. -/
def reqPrompt (req : AnalysisRequest) : String :=
  match req with
  | .text b => b
  | .url r => r
  | .image _ => "Analyze the text and context in this image."

/-- The optional image the tab handlers pass to `get_ai_analysis`. -/
def reqImage (req : AnalysisRequest) : Option ImageData :=
  match req with
  | .image im => some im
  | _ => none

/-- A tab handler's `analysis = get_ai_analysis(...)` followed by
`display_analysis_report(analysis)` (the nonempty-input branch). -/
def runRequest (gen : List GenPart → ModelOutcome) (req : AnalysisRequest) : DisplayOut :=
  display_analysis_report (get_ai_analysis gen (reqPrompt req) (reqImage req))

/-- Outcome of `requests.get` plus the HTML parse: a raised transport error
(connection, timeout, ...) with its `str(e)`, or a delivered response with
its status code and the text of each paragraph element of the body. -/
inductive HttpOutcome where
  | failure (msg : String)
  | response (status : Nat) (paragraphs : List String)

/-- Modelled from the spec: the message of the `requests.HTTPError` raised by
`response.raise_for_status()` for a 4xx/5xx status; only its presence matters. -/
def raiseForStatusMsg (status : Nat) : String :=
  toString status ++ (if status < 500 then " Client Error" else " Server Error")

/-- `get_text_from_url`: on any exception (transport failure, or
`raise_for_status` on a 4xx/5xx status) return the `"Error fetching URL: ..."`
string; otherwise join the paragraph texts with single spaces. -/
def get_text_from_url (o : HttpOutcome) : String :=
  match o with
  | .failure e => "Error fetching URL: " ++ e
  | .response status paragraphs =>
    if 400 ≤ status ∧ status < 600 then
      "Error fetching URL: " ++ raiseForStatusMsg status
    else
      String.intercalate " " paragraphs

/-- Outcome of the URL-tab scan handler: either the fetch-error banner
(analysis never invoked), or the displayed analysis of the scraped text. -/
inductive UrlScanOut where
  | fetchErrorShown (msg : String)
  | analyzed (result : DisplayOut)
deriving Repr

/-- Whether the URL scan stopped at the fetch-error banner. -/
def isFetchErrorShown (u : UrlScanOut) : Bool :=
  match u with
  | .fetchErrorShown _ => true
  | _ => false

/-- The URL-tab handler (nonempty-input branch): scrape, then branch on
whether the substring `"Error"` occurs in the scraped text. -/
def urlScanHandler (gen : List GenPart → ModelOutcome) (o : HttpOutcome) : UrlScanOut :=
  let scraped := get_text_from_url o
  if listContains "Error".toList scraped.toList then
    .fetchErrorShown scraped
  else
    .analyzed (display_analysis_report (get_ai_analysis gen scraped none))

/-- Outcome of the startup block (`load_dotenv` + `genai.configure` +
`GenerativeModel`): success, or an exception with its `str(e)`. -/
inductive SetupOutcome where
  | success
  | failure (msg : String)

/-- State of the app after the startup block: serving requests, or halted by
`st.stop()` after the error banner. -/
inductive AppStart where
  | serving
  | halted (errMsg : String)
deriving Repr

/-- The `try/except` around model configuration: any configuration failure
shows the banner and halts the script before any request handler runs. -/
def startup (o : SetupOutcome) : AppStart :=
  match o with
  | .success => .serving
  | .failure e => .halted ("🚨 AI Model Error: " ++ e ++ ". Check your API key.")

/-- Whether a string starts with the given leading text. -/
def strStartsWith (s p : String) : Bool :=
  p.toList.isPrefixOf s.toList

/-- The flag list a `FlagsRender` displays (the no-flags message shows zero
flags). -/
def flagsListOf (fo : FlagsRender) : List (JVal × JVal) :=
  match fo with
  | .noFlagsMessage => []
  | .flagList l => l

/-- Validity of the body of a JSON string literal (between the quotes):
escape sequences are well formed and raw characters are neither quotes,
backslashes nor control characters. -/
def validStrInner : List Char → Bool
  | [] => true
  | '\\' :: 'u' :: h1 :: h2 :: h3 :: h4 :: rest =>
    isHexDigitC h1 && isHexDigitC h2 && isHexDigitC h3 && isHexDigitC h4 &&
      validStrInner rest
  | '\\' :: 'u' :: _ => false
  | '\\' :: c :: rest => (escChar c).isSome && validStrInner rest
  | '\\' :: [] => false
  | c :: rest => (c != '\x22') && (c != '\\') && decide (32 ≤ c.toNat) && validStrInner rest

mutual

/-- The texts denoting a single JSON value (the body of a JSON document,
whitespace between tokens allowed); mirrors the JSON grammar `json.loads`
accepts. -/
inductive JsonValText : List Char → Prop where
  | nullT : JsonValText ('n' :: 'u' :: 'l' :: 'l' :: [])
  | trueT : JsonValText ('t' :: 'r' :: 'u' :: 'e' :: [])
  | falseT : JsonValText ('f' :: 'a' :: 'l' :: 's' :: 'e' :: [])
  | strT (inner : List Char) (h : validStrInner inner = true) :
      JsonValText ('\x22' :: (inner ++ ['\x22']))
  | numT (neg : Bool) (ip fp ex : List Char)
      (hip : ip ≠ [] ∧ ip.all Char.isDigit = true ∧ (ip.head? = some '0' → ip = ['0']))
      (hfp : fp = [] ∨ ∃ ds, ds ≠ [] ∧ ds.all Char.isDigit = true ∧ fp = '.' :: ds)
      (hex : ex = [] ∨ ∃ e sg ds, (e = 'e' ∨ e = 'E') ∧
        (sg = [] ∨ sg = ['+'] ∨ sg = ['-']) ∧ ds ≠ [] ∧ ds.all Char.isDigit = true ∧
        ex = e :: (sg ++ ds)) :
      JsonValText ((if neg then ['-'] else []) ++ ip ++ fp ++ ex)
  | arrEmpty (w : List Char) (hw : w.all isJwsChar = true) :
      JsonValText ('[' :: (w ++ [']']))
  | arrT (inner : List Char) (hi : JsonItemsText inner) :
      JsonValText ('[' :: (inner ++ [']']))
  | objEmpty (w : List Char) (hw : w.all isJwsChar = true) :
      JsonValText ('\x7b' :: (w ++ ['\x7d']))
  | objT (inner : List Char) (hi : JsonMembersText inner) :
      JsonValText ('\x7b' :: (inner ++ ['\x7d']))

/-- The texts between the brackets of a nonempty JSON array: one or more
whitespace-padded value texts separated by commas. -/
inductive JsonItemsText : List Char → Prop where
  | single (a m b : List Char) (ha : a.all isJwsChar = true)
      (hb : b.all isJwsChar = true) (hm : JsonValText m) :
      JsonItemsText (a ++ m ++ b)
  | cons (a m b rest : List Char) (ha : a.all isJwsChar = true)
      (hb : b.all isJwsChar = true) (hm : JsonValText m)
      (hr : JsonItemsText rest) :
      JsonItemsText (a ++ m ++ b ++ ',' :: rest)

/-- The texts between the braces of a nonempty JSON object: one or more
`"key" : value` members, whitespace-padded, separated by commas. -/
inductive JsonMembersText : List Char → Prop where
  | single (a key w b m c : List Char) (ha : a.all isJwsChar = true)
      (hk : validStrInner key = true) (hw : w.all isJwsChar = true)
      (hb : b.all isJwsChar = true) (hc : c.all isJwsChar = true)
      (hm : JsonValText m) :
      JsonMembersText (a ++ '\x22' :: (key ++ '\x22' :: (w ++ ':' :: (b ++ m ++ c))))
  | cons (a key w b m c rest : List Char) (ha : a.all isJwsChar = true)
      (hk : validStrInner key = true) (hw : w.all isJwsChar = true)
      (hb : b.all isJwsChar = true) (hc : c.all isJwsChar = true)
      (hm : JsonValText m) (hr : JsonMembersText rest) :
      JsonMembersText
        (a ++ '\x22' :: (key ++ '\x22' :: (w ++ ':' :: (b ++ m ++ c ++ ',' :: rest))))

end

/-- A JSON text: a JSON value text surrounded by (JSON) whitespace — exactly
the documents `json.loads` accepts. -/
def IsJsonText (l : List Char) : Prop :=
  ∃ a m b, a.all isJwsChar = true ∧ b.all isJwsChar = true ∧
    JsonValText m ∧ l = a ++ m ++ b

/-- Whether a red-flag entry is a dict or a string — the two shapes the
rendering loop has a branch for. -/
def isObjOrStr (x : JVal) : Bool :=
  match x with
  | .jobj _ => true
  | .jstr _ => true
  | _ => false

/-- Total version of `renderFlag` (meaningful on dict and string entries). -/
def renderFlagTotal (x : JVal) : JVal × JVal :=
  (renderFlag x).getD (JVal.jnull, JVal.jnull)

/-- Whether the `red_flags` value read from a result dict can be iterated by
the rendering loop without a `TypeError` (falsy, or iterable). -/
def rfRenderable (kvs : List (String × JVal)) : Bool :=
  let rf := dictGet kvs "red_flags" (JVal.jarr [])
  !pyTruthy rf || (pyIter rf).isSome

/-- Model outcomes on which the renderer completes: any raised call, any
unparseable response, and any response parsing to a JSON object whose
`red_flags` (when the object lacks an `"error"` key) is renderable.  A
response parsing to a non-object is excluded: the renderer faults on it. -/
def goodModelOutcome (o : ModelOutcome) : Prop :=
  match o with
  | .exc _ => True
  | .ok txt =>
    match parseJson (stripFences txt) with
    | none => True
    | some (JVal.jobj kvs) => hasKey kvs "error" = true ∨ rfRenderable kvs = true
    | some _ => False

theorem strToList_append (a b : String) : (a ++ b).toList = a.toList ++ b.toList := rfl

theorem isPrefixOf_iff (p s : List Char) :
    p.isPrefixOf s = true ↔ ∃ t, s = p ++ t := by
  induction p generalizing s with
  | nil => simp [List.isPrefixOf]
  | cons a p' ih =>
    cases s with
    | nil =>
      simp [List.isPrefixOf]
    | cons b s' =>
      simp only [List.isPrefixOf, Bool.and_eq_true, beq_iff_eq, ih, List.cons_append]
      constructor
      · rintro ⟨rfl, t, rfl⟩
        exact ⟨t, rfl⟩
      · rintro ⟨t, ht⟩
        injection ht with h1 h2
        exact ⟨h1.symm, t, h2⟩

theorem isPrefixOf_ext {p s : List Char} (x : List Char)
    (h : p.isPrefixOf s = true) : p.isPrefixOf (s ++ x) = true := by
  obtain ⟨t, rfl⟩ := (isPrefixOf_iff p s).mp h
  exact (isPrefixOf_iff _ _).mpr ⟨t ++ x, by simp⟩

theorem replaceLF_fuel {p r : List Char} :
    ∀ f (s : List Char), s.length ≤ f →
      replaceLF p r f s = replaceLF p r s.length s := by
  intro f
  induction f using Nat.strong_induction_on with
  | _ f ih =>
    match f with
    | 0 =>
      intro s hl
      have h0 : s = [] := List.eq_nil_of_length_eq_zero (Nat.le_zero.mp hl)
      subst h0
      rfl
    | f + 1 =>
      intro s hl
      cases s with
      | nil => rfl
      | cons c cs =>
        have hlcs : cs.length ≤ f := by
          simp only [List.length_cons] at hl
          omega
        simp only [List.length_cons, replaceLF]
        by_cases hcond : p ≠ [] ∧ p.isPrefixOf (c :: cs) = true
        · rw [if_pos hcond, if_pos hcond]
          congr 1
          have h1 : (cs.drop (p.length - 1)).length ≤ f := by
            simp only [List.length_drop]
            omega
          have h2 : (cs.drop (p.length - 1)).length ≤ cs.length := by
            simp only [List.length_drop]
            omega
          rw [ih f (by omega) _ h1, ih cs.length (by omega) _ h2]
        · rw [if_neg hcond, if_neg hcond]
          congr 1
          rw [ih f (by omega) cs hlcs, ih cs.length (by omega) cs le_rfl]

theorem replaceL_nil (p r : List Char) : replaceL p r [] = [] := rfl

theorem replaceL_cons_pos {p : List Char} (r : List Char) {c : Char} {cs : List Char}
    (hp : p ≠ []) (hpre : p.isPrefixOf (c :: cs) = true) :
    replaceL p r (c :: cs) = r ++ replaceL p r ((c :: cs).drop p.length) := by
  have hd : (c :: cs).drop p.length = cs.drop (p.length - 1) := by
    cases p with
    | nil => exact absurd rfl hp
    | cons a p' => simp [List.drop_succ_cons]
  have hcond : p ≠ [] ∧ p.isPrefixOf (c :: cs) = true := ⟨hp, hpre⟩
  show replaceLF p r (c :: cs).length (c :: cs) = _
  simp only [List.length_cons, replaceLF]
  rw [if_pos hcond, hd]
  congr 1
  have h2 : (cs.drop (p.length - 1)).length ≤ cs.length := by
    simp only [List.length_drop]
    omega
  unfold replaceL
  exact (replaceLF_fuel cs.length _ h2)

theorem replaceL_cons_neg {p : List Char} (r : List Char) {c : Char} {cs : List Char}
    (h : ¬(p ≠ [] ∧ p.isPrefixOf (c :: cs) = true)) :
    replaceL p r (c :: cs) = c :: replaceL p r cs := by
  show replaceLF p r (c :: cs).length (c :: cs) = _
  simp only [List.length_cons, replaceLF]
  rw [if_neg h]
  rfl

theorem replaceL_front {p : List Char} (r : List Char) (hp : p ≠ [])
    (s : List Char) : replaceL p r (p ++ s) = r ++ replaceL p r s := by
  cases p with
  | nil => exact absurd rfl hp
  | cons c p' =>
    have hpre : (c :: p').isPrefixOf (c :: (p' ++ s)) = true :=
      (isPrefixOf_iff _ _).mpr ⟨s, by simp⟩
    rw [List.cons_append, replaceL_cons_pos r (List.cons_ne_nil c p') hpre]
    congr 1
    rw [show c :: (p' ++ s) = (c :: p') ++ s from rfl, List.drop_left]

theorem replaceL_cons_notmem {p : List Char} (r : List Char) (hp : p ≠ []) {c : Char}
    (hc : c ∉ p) (s₂ : List Char) :
    replaceL p r (c :: s₂) = c :: replaceL p r s₂ := by
  apply replaceL_cons_neg
  rintro ⟨-, h2⟩
  obtain ⟨t, ht⟩ := (isPrefixOf_iff _ _).mp h2
  cases p with
  | nil => exact hp rfl
  | cons a p' =>
    rw [List.cons_append] at ht
    injection ht with h3 _
    exact hc (h3 ▸ List.mem_cons_self a p')

theorem prefixLen_le {p : List Char} {c : Char} (hc : c ∉ p) {s₁ s₂ : List Char}
    (h : p.isPrefixOf (s₁ ++ c :: s₂) = true) : p.length ≤ s₁.length := by
  by_contra hgt
  push_neg at hgt
  obtain ⟨t, ht⟩ := (isPrefixOf_iff _ _).mp h
  have h1 : (s₁ ++ c :: s₂).take (s₁.length + 1) = s₁ ++ [c] := by
    rw [List.take_append_eq_append_take]
    simp
  have h2 : (p ++ t).take (s₁.length + 1) = p.take (s₁.length + 1) := by
    rw [List.take_append_eq_append_take]
    have hz : s₁.length + 1 - p.length = 0 := by omega
    simp [hz]
  have h3 : s₁ ++ [c] = p.take (s₁.length + 1) := by rw [← h1, ht, h2]
  have h4 : c ∈ p.take (s₁.length + 1) := by rw [← h3]; simp
  exact hc (List.take_subset _ _ h4)

theorem prefixSplit {p s₁ s₂ t : List Char} (ht : s₁ ++ s₂ = p ++ t)
    (hle : p.length ≤ s₁.length) : ∃ u, s₁ = p ++ u := by
  refine ⟨s₁.drop p.length, ?_⟩
  have h1 : s₁.take p.length = p := by
    have h0 := congrArg (List.take p.length) ht
    rw [List.take_append_eq_append_take, List.take_append_eq_append_take] at h0
    have hz1 : p.length - s₁.length = 0 := by omega
    simp [hz1] at h0
    exact h0
  conv_lhs => rw [← List.take_append_drop p.length s₁]
  rw [h1]

theorem replaceL_sep_aux {p : List Char} (r : List Char) (hp : p ≠ []) {c : Char}
    (hc : c ∉ p) :
    ∀ n s₁, s₁.length ≤ n → ∀ s₂,
      replaceL p r (s₁ ++ c :: s₂) = replaceL p r s₁ ++ c :: replaceL p r s₂ := by
  intro n
  induction n with
  | zero =>
    intro s₁ hl s₂
    have h0 : s₁ = [] := List.eq_nil_of_length_eq_zero (Nat.le_zero.mp hl)
    subst h0
    simp [replaceL_nil, replaceL_cons_notmem r hp hc]
  | succ n ih =>
    intro s₁ hl s₂
    cases s₁ with
    | nil => simp [replaceL_nil, replaceL_cons_notmem r hp hc]
    | cons d s₁' =>
      by_cases hpre : p.isPrefixOf ((d :: s₁') ++ c :: s₂) = true
      · have hle := prefixLen_le hc hpre
        obtain ⟨t, ht⟩ := (isPrefixOf_iff _ _).mp hpre
        obtain ⟨u, hu⟩ := prefixSplit ht hle
        rw [hu]
        rw [List.append_assoc, replaceL_front r hp, replaceL_front r hp]
        have hul : u.length ≤ n := by
          have h1 : (d :: s₁').length = p.length + u.length := by rw [hu]; simp
          have h2 : 0 < p.length := List.length_pos.mpr hp
          have h3 : (d :: s₁').length ≤ n + 1 := hl
          omega
        rw [ih u hul s₂]
        simp [List.append_assoc]
      · have hpre' : ¬ p.isPrefixOf (d :: s₁') = true :=
          fun hh => hpre (isPrefixOf_ext _ hh)
        rw [List.cons_append,
          replaceL_cons_neg r (fun hx => hpre (by rw [List.cons_append]; exact hx.2))]
        have hl' : s₁'.length ≤ n := by
          have : (d :: s₁').length ≤ n + 1 := hl
          simp at this
          omega
        rw [ih s₁' hl' s₂]
        rw [replaceL_cons_neg r (fun hx => hpre' hx.2)]
        simp

theorem replaceL_sep {p : List Char} (r : List Char) (hp : p ≠ []) {c : Char}
    (hc : c ∉ p) (s₁ s₂ : List Char) :
    replaceL p r (s₁ ++ c :: s₂) = replaceL p r s₁ ++ c :: replaceL p r s₂ :=
  replaceL_sep_aux r hp hc s₁.length s₁ le_rfl s₂

theorem replaceL_run_front {p : List Char} (r : List Char) (hp : p ≠ [])
    {a : List Char} (ha : ∀ x ∈ a, x ∉ p) (s : List Char) :
    replaceL p r (a ++ s) = a ++ replaceL p r s := by
  induction a with
  | nil => simp
  | cons x a' ih =>
    rw [List.cons_append, replaceL_cons_notmem r hp (ha x (by simp))]
    rw [ih (fun y hy => ha y (by simp [hy]))]
    simp

theorem replaceL_self_of_disjoint {p : List Char} (r : List Char) (hp : p ≠ [])
    {a : List Char} (ha : ∀ x ∈ a, x ∉ p) : replaceL p r a = a := by
  have h := replaceL_run_front r hp ha []
  simpa [replaceL_nil] using h

theorem replaceL_run_back {p : List Char} (r : List Char) (hp : p ≠ [])
    {b : List Char} (hb : ∀ x ∈ b, x ∉ p) (s : List Char) :
    replaceL p r (s ++ b) = replaceL p r s ++ b := by
  cases b with
  | nil => simp
  | cons x b' =>
    rw [replaceL_sep r hp (hb x (by simp)) s b']
    have hb' : replaceL p r b' = b' :=
      replaceL_self_of_disjoint r hp (fun y hy => hb y (List.mem_cons_of_mem x hy))
    rw [hb']

theorem jws_cases {c : Char} (h : isJwsChar c = true) :
    c = ' ' ∨ c = '\t' ∨ c = '\n' ∨ c = '\r' := by
  simp only [isJwsChar, Bool.or_eq_true, beq_iff_eq] at h
  tauto

theorem pws_cases {c : Char} (h : isPwsChar c = true) :
    c = ' ' ∨ c = '\t' ∨ c = '\n' ∨ c = '\r' ∨ c = '\x0b' ∨ c = '\x0c' := by
  simp only [isPwsChar, isJwsChar, Bool.or_eq_true, beq_iff_eq] at h
  tauto

theorem isPws_of_jws {c : Char} (h : isJwsChar c = true) : isPwsChar c = true := by
  simp [isPwsChar, h]

theorem jws_not_mem_fj {c : Char} (h : isJwsChar c = true) :
    c ∉ "```json".toList := by
  rcases jws_cases h with rfl | rfl | rfl | rfl <;> decide

theorem jws_not_mem_f3 {c : Char} (h : isJwsChar c = true) :
    c ∉ "```".toList := by
  rcases jws_cases h with rfl | rfl | rfl | rfl <;> decide

theorem dropWhile_append_all {f : Char → Bool} {a : List Char}
    (ha : ∀ x ∈ a, f x = true) (s : List Char) :
    (a ++ s).dropWhile f = s.dropWhile f := by
  induction a with
  | nil => simp
  | cons x a' ih =>
    have hx : f x = true := ha x (by simp)
    rw [List.cons_append, List.dropWhile_cons]
    simp only [hx, if_true]
    exact ih (fun y hy => ha y (by simp [hy]))

theorem dropWhile_cons_neg {f : Char → Bool} {c : Char} (hc : f c = false)
    (s : List Char) : (c :: s).dropWhile f = c :: s := by
  rw [List.dropWhile_cons]
  simp [hc]

theorem dropWhile_append_of_ne_nil {f : Char → Bool} {l₁ : List Char}
    (h : l₁.dropWhile f ≠ []) (l₂ : List Char) :
    (l₁ ++ l₂).dropWhile f = l₁.dropWhile f ++ l₂ := by
  induction l₁ with
  | nil => simp at h
  | cons x l₁' ih =>
    rw [List.cons_append, List.dropWhile_cons, List.dropWhile_cons]
    cases hx : f x with
    | true =>
      simp only [if_true]
      apply ih
      rw [List.dropWhile_cons, hx] at h
      simpa using h
    | false => simp

theorem trimEndF_append_all {f : Char → Bool} {b : List Char}
    (hb : ∀ x ∈ b, f x = true) (s : List Char) :
    trimEndF f (s ++ b) = trimEndF f s := by
  unfold trimEndF
  rw [List.reverse_append,
    dropWhile_append_all (fun x hx => hb x (List.mem_reverse.mp hx))]

theorem trimEndF_concat_neg {f : Char → Bool} {d : Char} (hd : f d = false)
    (z : List Char) : trimEndF f (z ++ [d]) = z ++ [d] := by
  unfold trimEndF
  rw [List.reverse_append]
  simp [dropWhile_cons_neg hd]

theorem cleaned_pads {a b : List Char} (ha : ∀ x ∈ a, isJwsChar x = true)
    (hb : ∀ x ∈ b, isJwsChar x = true) (W : List Char) :
    skipWs (jTrimEnd (a ++ W ++ b)) = skipWs (jTrimEnd W) := by
  unfold skipWs jTrimEnd
  rw [trimEndF_append_all hb]
  unfold trimEndF
  rw [List.reverse_append]
  by_cases hW : W.reverse.dropWhile isJwsChar = []
  · have hWall : ∀ x ∈ W.reverse, isJwsChar x = true :=
      List.dropWhile_eq_nil_iff.mp hW
    rw [dropWhile_append_all hWall, hW]
    have haall : ∀ x ∈ a.reverse, isJwsChar x = true :=
      fun x hx => ha x (List.mem_reverse.mp hx)
    rw [List.dropWhile_eq_nil_iff.mpr haall]
  · rw [dropWhile_append_of_ne_nil hW, List.reverse_append, List.reverse_reverse]
    exact dropWhile_append_all ha _

theorem parseJsonList_pads {a b : List Char} (ha : ∀ x ∈ a, isJwsChar x = true)
    (hb : ∀ x ∈ b, isJwsChar x = true) (W : List Char) :
    parseJsonList (a ++ W ++ b) = parseJsonList W := by
  unfold parseJsonList
  rw [cleaned_pads ha hb]

theorem pyStrip_core {a m b : List Char} (ha : ∀ x ∈ a, isJwsChar x = true)
    (hb : ∀ x ∈ b, isJwsChar x = true)
    (hm : ∃ c s, m = c :: s ∧ isPwsChar c = false)
    (hm2 : ∃ s d, m = s ++ [d] ∧ isPwsChar d = false) :
    pyStrip (a ++ m ++ b) = m := by
  unfold pyStrip
  have hapws : ∀ x ∈ a, isPwsChar x = true := fun x hx => isPws_of_jws (ha x hx)
  have hbpws : ∀ x ∈ b, isPwsChar x = true := fun x hx => isPws_of_jws (hb x hx)
  rw [List.append_assoc, dropWhile_append_all hapws]
  obtain ⟨c, s, hm1, hc⟩ := hm
  rw [hm1, List.cons_append, dropWhile_cons_neg hc, ← List.cons_append, ← hm1]
  rw [trimEndF_append_all hbpws]
  obtain ⟨s', d, hm2', hd⟩ := hm2
  rw [hm2', trimEndF_concat_neg hd]

theorem digit_not_pws {c : Char} (h : c.isDigit = true) : isPwsChar c = false := by
  cases hp : isPwsChar c
  · rfl
  · rcases pws_cases hp with rfl | rfl | rfl | rfl | rfl | rfl <;>
      exact absurd h (by decide)

theorem jsonValText_edges {m : List Char} (h : JsonValText m) :
    (∃ c s, m = c :: s ∧ isPwsChar c = false) ∧
    (∃ s d, m = s ++ [d] ∧ isPwsChar d = false) := by
  cases h with
  | nullT =>
    exact ⟨⟨'n', _, rfl, by decide⟩, ⟨['n', 'u', 'l'], 'l', rfl, by decide⟩⟩
  | trueT =>
    exact ⟨⟨'t', _, rfl, by decide⟩, ⟨['t', 'r', 'u'], 'e', rfl, by decide⟩⟩
  | falseT =>
    exact ⟨⟨'f', _, rfl, by decide⟩, ⟨['f', 'a', 'l', 's'], 'e', rfl, by decide⟩⟩
  | strT inner hv =>
    refine ⟨⟨'\x22', _, rfl, by decide⟩, ⟨'\x22' :: inner, '\x22', ?_, by decide⟩⟩
    simp
  | arrEmpty w hw =>
    refine ⟨⟨'[', _, rfl, by decide⟩, ⟨'[' :: w, ']', ?_, by decide⟩⟩
    simp
  | arrT inner hi =>
    refine ⟨⟨'[', _, rfl, by decide⟩, ⟨'[' :: inner, ']', ?_, by decide⟩⟩
    simp
  | objEmpty w hw =>
    refine ⟨⟨'\x7b', _, rfl, by decide⟩, ⟨'\x7b' :: w, '\x7d', ?_, by decide⟩⟩
    simp
  | objT inner hi =>
    refine ⟨⟨'\x7b', _, rfl, by decide⟩, ⟨'\x7b' :: inner, '\x7d', ?_, by decide⟩⟩
    simp
  | numT neg ip fp ex hip hfp hex =>
    constructor
    · cases neg with
      | true => exact ⟨'-', (ip ++ fp) ++ ex, by simp, by decide⟩
      | false =>
        obtain ⟨i, ip', hip'⟩ : ∃ i ip', ip = i :: ip' := by
          cases ip with
          | nil => exact absurd rfl hip.1
          | cons i ip' => exact ⟨i, ip', rfl⟩
        have hid : i.isDigit = true :=
          List.all_eq_true.mp hip.2.1 i (by rw [hip']; simp)
        refine ⟨i, (ip' ++ fp) ++ ex, ?_, digit_not_pws hid⟩
        rw [hip']
        simp
    · rcases hex with hex0 | ⟨e, sg, ds, he, hsg, hds, hdsall, hexeq⟩
      · rcases hfp with hfp0 | ⟨ds, hds, hdsall, hfpeq⟩
        · obtain (h1 | ⟨ip', i, hip'⟩) := List.eq_nil_or_concat ip
          · exact absurd h1 hip.1
          · have hid : i.isDigit = true :=
              List.all_eq_true.mp hip.2.1 i (by rw [hip']; simp)
            refine ⟨(if neg then ['-'] else []) ++ ip', i, ?_, digit_not_pws hid⟩
            rw [hip', hex0, hfp0]
            simp
        · obtain (h1 | ⟨ds', dd, hds'⟩) := List.eq_nil_or_concat ds
          · exact absurd h1 hds
          · have hid : dd.isDigit = true :=
              List.all_eq_true.mp hdsall dd (by rw [hds']; simp)
            refine ⟨(if neg then ['-'] else []) ++ ip ++ ('.' :: ds'), dd, ?_,
              digit_not_pws hid⟩
            rw [hfpeq, hds', hex0]
            simp
      · obtain (h1 | ⟨ds', dd, hds'⟩) := List.eq_nil_or_concat ds
        · exact absurd h1 hds
        · have hid : dd.isDigit = true :=
            List.all_eq_true.mp hdsall dd (by rw [hds']; simp)
          refine ⟨(if neg then ['-'] else []) ++ ip ++ fp ++ (e :: (sg ++ ds')), dd,
            ?_, digit_not_pws hid⟩
          rw [hexeq, hds']
          simp

theorem stripParse_wrap_core (a m b : List Char)
    (ha : ∀ x ∈ a, isJwsChar x = true) (hb : ∀ x ∈ b, isJwsChar x = true)
    (hm : JsonValText m) :
    parseJsonList
        (stripFencesList ("```json\n".toList ++ (a ++ m ++ b) ++ "\n```".toList)) =
      parseJsonList (stripFencesList (a ++ m ++ b)) := by
  obtain ⟨hmh, hml⟩ := jsonValText_edges hm
  have hfjne : "```json".toList ≠ [] := by decide
  have hf3ne : "```".toList ≠ [] := by decide
  have hnlfj : '\n' ∉ "```json".toList := by decide
  have hnlf3 : '\n' ∉ "```".toList := by decide
  have hdisja1 : ∀ x ∈ a, x ∉ "```json".toList := fun x hx => jws_not_mem_fj (ha x hx)
  have hdisjb1 : ∀ x ∈ b, x ∉ "```json".toList := fun x hx => jws_not_mem_fj (hb x hx)
  have hdisja3 : ∀ x ∈ a, x ∉ "```".toList := fun x hx => jws_not_mem_f3 (ha x hx)
  have hdisjb3 : ∀ x ∈ b, x ∉ "```".toList := fun x hx => jws_not_mem_f3 (hb x hx)
  have hme1 : ∃ c s,
      "```json\n".toList ++ (a ++ m ++ b) ++ "\n```".toList = c :: s ∧
        isPwsChar c = false := by
    refine ⟨'\x60', "``json\n".toList ++ ((a ++ m ++ b) ++ "\n```".toList), ?_, by decide⟩
    have e1 : "```json\n".toList = '\x60' :: "``json\n".toList := by decide
    rw [e1]
    simp
  have hme2 : ∃ s d,
      "```json\n".toList ++ (a ++ m ++ b) ++ "\n```".toList = s ++ [d] ∧
        isPwsChar d = false := by
    refine ⟨"```json\n".toList ++ (a ++ m ++ b) ++ "\n``".toList, '\x60', ?_, by decide⟩
    have e2 : "\n```".toList = "\n``".toList ++ ['\x60'] := by decide
    rw [e2]
    simp
  have hw : pyStrip ("```json\n".toList ++ (a ++ m ++ b) ++ "\n```".toList) =
      "```json\n".toList ++ (a ++ m ++ b) ++ "\n```".toList := by
    have hself := pyStrip_core (a := ([] : List Char)) (b := ([] : List Char))
      (by simp) (by simp) hme1 hme2
    simpa using hself
  have hshape : "```json\n".toList ++ (a ++ m ++ b) ++ "\n```".toList =
      "```json".toList ++ ('\n' :: ((a ++ m ++ b) ++ ('\n' :: "```".toList))) := by
    have e3 : "```json\n".toList = "```json".toList ++ ['\n'] := by decide
    have e4 : "\n```".toList = '\n' :: "```".toList := by decide
    rw [e3, e4]
    simp
  have hrep1f3 : replaceL "```json".toList [] "```".toList = "```".toList := by decide
  have hrep2f3 : replaceL "```".toList [] "```".toList = ([] : List Char) := by decide
  have hrhs : stripFencesList (a ++ m ++ b) =
      replaceL "```".toList [] (replaceL "```json".toList [] m) := by
    unfold stripFencesList
    rw [pyStrip_core ha hb hmh hml]
  have hlhs : stripFencesList
      ("```json\n".toList ++ (a ++ m ++ b) ++ "\n```".toList) =
      ('\n' :: a) ++
        replaceL "```".toList [] (replaceL "```json".toList [] m) ++
        (b ++ ['\n']) := by
    unfold stripFencesList
    rw [hw, hshape]
    rw [replaceL_front [] hfjne]
    simp only [List.nil_append]
    rw [replaceL_cons_notmem [] hfjne hnlfj]
    rw [replaceL_sep [] hfjne hnlfj]
    rw [hrep1f3]
    rw [replaceL_run_back [] hfjne hdisjb1]
    rw [replaceL_run_front [] hfjne hdisja1]
    rw [replaceL_cons_notmem [] hf3ne hnlf3]
    rw [replaceL_sep [] hf3ne hnlf3]
    rw [hrep2f3]
    rw [replaceL_run_back [] hf3ne hdisjb3]
    rw [replaceL_run_front [] hf3ne hdisja3]
    simp [List.append_assoc]
  rw [hlhs, hrhs]
  have hpadl : ∀ x ∈ '\n' :: a, isJwsChar x = true := by
    intro x hx
    rcases List.mem_cons.mp hx with rfl | hx'
    · decide
    · exact ha x hx'
  have hpadr : ∀ x ∈ b ++ ['\n'], isJwsChar x = true := by
    intro x hx
    rcases List.mem_append.mp hx with hx' | hx'
    · exact hb x hx'
    · rcases List.mem_singleton.mp hx' with rfl
      decide
  exact parseJsonList_pads hpadl hpadr _

theorem dictGet_of_not_hasKey {kvs : List (String × JVal)} {k : String}
    (h : hasKey kvs k = false) (d : JVal) : dictGet kvs k d = d := by
  unfold dictGet
  unfold hasKey at h
  cases hf : dictFind kvs k with
  | none => rfl
  | some v => rw [hf] at h; simp at h

theorem dictGet_of_find {kvs : List (String × JVal)} {k : String} {v : JVal}
    (h : dictFind kvs k = some v) (d : JVal) : dictGet kvs k d = v := by
  unfold dictGet
  rw [h]
  rfl

theorem hasKey_dictFind {kvs : List (String × JVal)} {k : String}
    (h : hasKey kvs k = true) : ∃ v, dictFind kvs k = some v := by
  unfold hasKey at h
  cases hf : dictFind kvs k with
  | none => rw [hf] at h; simp at h
  | some v => exact ⟨v, rfl⟩

theorem display_obj_error {kvs : List (String × JVal)}
    (h : hasKey kvs "error" = true) :
    ∃ v, dictFind kvs "error" = some v ∧
      display_analysis_report (JVal.jobj kvs) = DisplayOut.errorShown v := by
  obtain ⟨v, hv⟩ := hasKey_dictFind h
  refine ⟨v, hv, ?_⟩
  unfold display_analysis_report
  simp only [pyContains, h, pySubscript, hv]

theorem display_obj_noerror {kvs : List (String × JVal)}
    (h : hasKey kvs "error" = false) :
    display_analysis_report (JVal.jobj kvs) =
      (match flagsOut (dictGet kvs "red_flags" (JVal.jarr [])) with
       | none => DisplayOut.crash
       | some fo =>
         DisplayOut.report (dictGet kvs "credibility_score" (JVal.jint 0))
           (dictGet kvs "summary" (JVal.jstr "No summary available.")) fo
           (dictGet kvs "educational_insight"
             (JVal.jstr "No educational insight available."))) := by
  unfold display_analysis_report
  simp only [pyContains, h]

theorem flagsOut_jarr_cons (x : JVal) (xs : List JVal) :
    flagsOut (JVal.jarr (x :: xs)) =
      some (FlagsRender.flagList ((x :: xs).filterMap renderFlag)) := rfl

theorem renderFlag_eq_total {x : JVal} (h : isObjOrStr x = true) :
    renderFlag x = some (renderFlagTotal x) := by
  cases x <;> simp_all [isObjOrStr, renderFlag, renderFlagTotal]

theorem filterMap_renderFlag_all {l : List JVal}
    (h : ∀ x ∈ l, isObjOrStr x = true) :
    l.filterMap renderFlag = l.map renderFlagTotal := by
  induction l with
  | nil => rfl
  | cons x xs ih =>
    rw [List.filterMap_cons, renderFlag_eq_total (h x (by simp)), List.map_cons]
    rw [ih (fun y hy => h y (by simp [hy]))]

theorem flagsOut_isSome_of_renderable {kvs : List (String × JVal)}
    (h : rfRenderable kvs = true) :
    ∃ fo, flagsOut (dictGet kvs "red_flags" (JVal.jarr [])) = some fo := by
  unfold rfRenderable at h
  unfold flagsOut
  by_cases ht : pyTruthy (dictGet kvs "red_flags" (JVal.jarr [])) = true
  · rw [if_pos ht]
    simp only [ht, Bool.not_true, Bool.false_or] at h
    cases hi : pyIter (dictGet kvs "red_flags" (JVal.jarr [])) with
    | none => rw [hi] at h; simp at h
    | some items => exact ⟨_, rfl⟩
  · rw [if_neg ht]
    exact ⟨_, rfl⟩

theorem strStartsWith_aiFailureMsg (d : String) :
    strStartsWith (aiFailureMsg d) "AI analysis failed" = true := by
  unfold strStartsWith aiFailureMsg
  apply (isPrefixOf_iff _ _).mpr
  refine ⟨". The model response was not valid JSON. Details: ".toList ++ d.toList, ?_⟩
  rw [strToList_append]
  have h0 :
      "AI analysis failed. The model response was not valid JSON. Details: ".toList =
        "AI analysis failed".toList ++
          ". The model response was not valid JSON. Details: ".toList := by decide
  rw [h0, List.append_assoc]

/-- C5: for every JSON text `t`, the pipeline's fence-stripping-then-parse
step yields the same parsed value on `t` wrapped in triple-backtick JSON code
fences as on `t` unwrapped. -/
theorem c5_fence_strip_roundtrip (t : String) (h : IsJsonText t.toList) :
    parseJson (stripFences (wrapFences t)) = parseJson (stripFences t) := by
  obtain ⟨a, m, b, ha, hb, hm, heq⟩ := h
  show parseJsonList (stripFencesList ((wrapFences t).toList)) =
    parseJsonList (stripFencesList t.toList)
  have hwl : (wrapFences t).toList =
      "```json\n".toList ++ t.toList ++ "\n```".toList := by
    unfold wrapFences
    rw [strToList_append, strToList_append]
  rw [hwl, heq]
  exact stripParse_wrap_core a m b (List.all_eq_true.mp ha) (List.all_eq_true.mp hb) hm

/-- C5 witness: the JSON text `"null"`, fenced and unfenced, parses alike
(both to the JSON null value). -/
theorem c5_fence_strip_roundtrip_witness :
    parseJson (stripFences (wrapFences "null")) = parseJson (stripFences "null") ∧
      parseJson (stripFences (wrapFences "null")) = some JVal.jnull :=
  ⟨c5_fence_strip_roundtrip "null"
      ⟨[], ['n', 'u', 'l', 'l'], [], rfl, rfl, JsonValText.nullT, by decide⟩,
    by rfl⟩

/-- C7 counterexample: HTTP 304 is a non-success status, but
`raise_for_status` raises only for 4xx/5xx, so the fetcher returns the
paragraph text `"A."` rather than a `FetchError` string. -/
theorem c7_counterexample :
    get_text_from_url (HttpOutcome.response 304 ["A."]) = "A." ∧
      strStartsWith (get_text_from_url (HttpOutcome.response 304 ["A."]))
        "Error fetching URL:" = false :=
  ⟨rfl, rfl⟩

/-- C7 (amended): the fetcher yields the `"Error fetching URL: ..."` failure
string for every client-error or server-error status (400–599) and for every
transport failure; on other statuses it joins the paragraph texts with single
spaces — two paragraphs `"A."`, `"B."` give `"A. B."`, and a page with no
paragraphs gives the empty string, not an error. -/
theorem c7_fetcher (st : Nat) (ps : List String) (h4 : 400 ≤ st) (h6 : st < 600) :
    get_text_from_url (HttpOutcome.response st ps) =
      "Error fetching URL: " ++ raiseForStatusMsg st ∧
    (∀ e, get_text_from_url (HttpOutcome.failure e) = "Error fetching URL: " ++ e) ∧
    get_text_from_url (HttpOutcome.response 200 ["A.", "B."]) = "A. B." ∧
    get_text_from_url (HttpOutcome.response 200 []) = "" := by
  refine ⟨?_, fun e => rfl, rfl, rfl⟩
  simp only [get_text_from_url]
  rw [if_pos ⟨h4, h6⟩]

/-- C7 witness: HTTP 404 yields the fetch-error string. -/
theorem c7_fetcher_witness :
    get_text_from_url (HttpOutcome.response 404 ["A."]) =
      "Error fetching URL: " ++ raiseForStatusMsg 404 :=
  (c7_fetcher 404 ["A."] (by decide) (by decide)).1

/-- C8: if configuring the model credential fails at startup, the app halts
(`st.stop()` after the error banner) and never reaches the serving state. -/
theorem c8_startup_halts (e : String) :
    startup (SetupOutcome.failure e) =
      AppStart.halted ("🚨 AI Model Error: " ++ e ++ ". Check your API key.") ∧
    startup (SetupOutcome.failure e) ≠ AppStart.serving :=
  ⟨rfl, fun h => AppStart.noConfusion h⟩

/-- C9: the URL flow classifies fetch success/failure solely by whether the
substring `"Error"` occurs in the scraped text; in particular a successfully
fetched page whose joined paragraph text contains `"Error"` is reported as a
fetch failure and the analysis pipeline is never invoked on it. -/
theorem c9_url_flow (gen : List GenPart → ModelOutcome) (o : HttpOutcome) :
    (isFetchErrorShown (urlScanHandler gen o) =
      listContains "Error".toList (get_text_from_url o).toList) ∧
    (∀ ps, listContains "Error".toList (String.intercalate " " ps).toList = true →
      urlScanHandler gen (HttpOutcome.response 200 ps) =
        UrlScanOut.fetchErrorShown (String.intercalate " " ps)) := by
  constructor
  · unfold urlScanHandler
    by_cases hc :
        listContains "Error".toList (get_text_from_url o).toList = true
    · rw [if_pos hc, hc]
      rfl
    · rw [if_neg hc]
      simp only [isFetchErrorShown]
      exact (Bool.eq_false_iff.mpr (fun hx => hc hx)).symm ▸ rfl
  · intro ps hps
    have hget : get_text_from_url (HttpOutcome.response 200 ps) =
        String.intercalate " " ps := by
      simp only [get_text_from_url]
      rw [if_neg (by omega)]
    unfold urlScanHandler
    rw [hget, if_pos hps]

/-- C9 witness: a 200 page whose paragraphs join to `"Error codes"` is shown
as a fetch failure (the analysis pipeline is not invoked). -/
theorem c9_url_flow_witness :
    urlScanHandler (fun _ => ModelOutcome.exc "unused")
        (HttpOutcome.response 200 ["Error", "codes"]) =
      UrlScanOut.fetchErrorShown (String.intercalate " " ["Error", "codes"]) :=
  (c9_url_flow (fun _ => ModelOutcome.exc "unused")
      (HttpOutcome.response 200 ["Error", "codes"])).2 ["Error", "codes"] rfl

/-- C10: for a result dict, success versus failure rendering is determined
solely by the presence of a top-level `"error"` key; consequently a model
response that is valid JSON with a top-level `"error"` key — here
`\x7b"error": "from model"\x7d` — is rendered as an analysis failure even
though the call and the parse both succeeded. -/
theorem c10_error_key_discriminates (kvs : List (String × JVal)) :
    (isFailureRec (display_analysis_report (JVal.jobj kvs)) = hasKey kvs "error") ∧
    (get_ai_analysis (fun _ => ModelOutcome.ok "\x7b\"error\": \"from model\"\x7d")
        "x" none = JVal.jobj [("error", JVal.jstr "from model")] ∧
      display_analysis_report (JVal.jobj [("error", JVal.jstr "from model")]) =
        DisplayOut.errorShown (JVal.jstr "from model")) := by
  refine ⟨?_, rfl, rfl⟩
  by_cases hk : hasKey kvs "error" = true
  · obtain ⟨v, -, hd⟩ := display_obj_error hk
    rw [hd, hk]
    rfl
  · have hk' : hasKey kvs "error" = false := by
      cases h : hasKey kvs "error"
      · rfl
      · exact absurd h hk
    rw [display_obj_noerror hk', hk']
    cases flagsOut (dictGet kvs "red_flags" (JVal.jarr [])) <;> rfl

/-- C3 counterexample: the model response `\x7b"error": "oops"\x7d` parses as
JSON and is missing all four expected top-level keys, yet it is rendered as a
failure record, not as a success record with defaults. -/
theorem c3_counterexample :
    get_ai_analysis (fun _ => ModelOutcome.ok "\x7b\"error\": \"oops\"\x7d")
        "x" none = JVal.jobj [("error", JVal.jstr "oops")] ∧
    display_analysis_report (JVal.jobj [("error", JVal.jstr "oops")]) =
      DisplayOut.errorShown (JVal.jstr "oops") ∧
    isSuccessRec (display_analysis_report (JVal.jobj [("error", JVal.jstr "oops")])) =
      false :=
  ⟨rfl, rfl, rfl⟩

/-- C3 (amended): every model response parsing to a JSON object that has no
`"error"` key and no `red_flags` key is rendered as a success record, with
each of the four fields read with its default when missing:
`credibility_score` defaults to 0, `summary` and `educational_insight` to the
fixed "not available" strings, and the missing `red_flags` to the empty
sequence (the no-flags message, not a failure). -/
theorem c3_missing_key_defaults (kvs : List (String × JVal))
    (he : hasKey kvs "error" = false) (hr : hasKey kvs "red_flags" = false) :
    display_analysis_report (JVal.jobj kvs) =
      DisplayOut.report (dictGet kvs "credibility_score" (JVal.jint 0))
        (dictGet kvs "summary" (JVal.jstr "No summary available."))
        FlagsRender.noFlagsMessage
        (dictGet kvs "educational_insight"
          (JVal.jstr "No educational insight available.")) ∧
    (hasKey kvs "credibility_score" = false →
      dictGet kvs "credibility_score" (JVal.jint 0) = JVal.jint 0) ∧
    (hasKey kvs "summary" = false →
      dictGet kvs "summary" (JVal.jstr "No summary available.") =
        JVal.jstr "No summary available.") ∧
    (hasKey kvs "educational_insight" = false →
      dictGet kvs "educational_insight"
          (JVal.jstr "No educational insight available.") =
        JVal.jstr "No educational insight available.") := by
  refine ⟨?_, fun h => dictGet_of_not_hasKey h _, fun h => dictGet_of_not_hasKey h _,
    fun h => dictGet_of_not_hasKey h _⟩
  rw [display_obj_noerror he, dictGet_of_not_hasKey hr]
  rfl

/-- C3 witness: the empty JSON object `\x7b\x7d` renders as a success record
with all four defaults. -/
theorem c3_missing_key_defaults_witness :
    display_analysis_report (JVal.jobj []) =
      DisplayOut.report (JVal.jint 0) (JVal.jstr "No summary available.")
        FlagsRender.noFlagsMessage
        (JVal.jstr "No educational insight available.") :=
  (c3_missing_key_defaults [] rfl rfl).1

/-- C4 counterexample: `red_flags = [7]` has one entry that is neither a dict
nor a string; the rendering loop has no branch for it, so the entry is
silently dropped — one entry in, zero flags rendered — refuting "never drops
an entry" for every red_flags value. -/
theorem c4_counterexample :
    flagsOut (JVal.jarr [JVal.jint 7]) = some (FlagsRender.flagList []) ∧
    display_analysis_report (JVal.jobj [("red_flags", JVal.jarr [JVal.jint 7])]) =
      DisplayOut.report (JVal.jint 0) (JVal.jstr "No summary available.")
        (FlagsRender.flagList []) (JVal.jstr "No educational insight available.") :=
  ⟨rfl, rfl⟩

/-- C4 (amended): when `red_flags` is a nonempty sequence each of whose
entries is a dict or a plain string, normalization never faults and never
drops an entry; in particular, when every entry is a plain string each is
promoted to a `General Flag` record with the original string as description,
in the original order.  (Entries of any other type are silently dropped, and
a truthy non-sequence `red_flags` faults — see the counterexample.) -/
theorem c4_flag_normalization (l : List JVal) (hne : l ≠ [])
    (hall : ∀ x ∈ l, isObjOrStr x = true) :
    flagsOut (JVal.jarr l) = some (FlagsRender.flagList (l.map renderFlagTotal)) ∧
    (l.map renderFlagTotal).length = l.length ∧
    (∀ ss : List String, l = ss.map JVal.jstr →
      l.map renderFlagTotal =
        ss.map (fun s => (JVal.jstr "General Flag", JVal.jstr s))) := by
  refine ⟨?_, by simp, ?_⟩
  · cases l with
    | nil => exact absurd rfl hne
    | cons x xs =>
      rw [flagsOut_jarr_cons, filterMap_renderFlag_all hall]
  · intro ss hss
    subst hss
    rw [List.map_map]
    rfl

/-- C4 witness: a string entry and a structured entry are both kept, the
string promoted to a General Flag record. -/
theorem c4_flag_normalization_witness :
    flagsOut (JVal.jarr [JVal.jstr "a",
        JVal.jobj [("flag_type", JVal.jstr "T"), ("description", JVal.jstr "D")]]) =
      some (FlagsRender.flagList
        [(JVal.jstr "General Flag", JVal.jstr "a"), (JVal.jstr "T", JVal.jstr "D")]) :=
  (c4_flag_normalization
      [JVal.jstr "a",
        JVal.jobj [("flag_type", JVal.jstr "T"), ("description", JVal.jstr "D")]]
      (List.cons_ne_nil _ _)
      (by
        intro x hx
        rcases List.mem_cons.mp hx with rfl | hx'
        · rfl
        · rcases List.mem_cons.mp hx' with rfl | hx''
          · rfl
          · exact absurd hx'' (List.not_mem_nil x))).1

/-- C2: whenever the model call raises, or the (fence-stripped) response does
not parse as JSON, the pipeline returns the `\x7b"error": ...\x7d` failure
record whose message starts with the fixed prefix "AI analysis failed"
followed by the underlying cause, and the renderer shows it as the failure
banner — no exception escapes `get_ai_analysis`. -/
theorem c2_failure_record (gen : List GenPart → ModelOutcome) (p : String)
    (img : Option ImageData)
    (h : (∃ e, gen (requestContent p img) = ModelOutcome.exc e) ∨
      (∃ t, gen (requestContent p img) = ModelOutcome.ok t ∧
        parseJson (stripFences t) = none)) :
    get_ai_analysis gen p img =
      JVal.jobj [("error",
        JVal.jstr (failureMessageOf (gen (requestContent p img))))] ∧
    strStartsWith (failureMessageOf (gen (requestContent p img)))
      "AI analysis failed" = true ∧
    display_analysis_report (get_ai_analysis gen p img) =
      DisplayOut.errorShown
        (JVal.jstr (failureMessageOf (gen (requestContent p img)))) := by
  rcases h with ⟨e, he⟩ | ⟨t, ht, hpn⟩
  · unfold get_ai_analysis failureMessageOf
    rw [he]
    exact ⟨rfl, strStartsWith_aiFailureMsg e, rfl⟩
  · unfold get_ai_analysis failureMessageOf
    rw [ht]
    simp only [hpn]
    exact ⟨trivial, strStartsWith_aiFailureMsg _, rfl⟩

/-- C2 witness: a raised model call (message "boom") yields the prefix-tagged
failure record and the failure banner. -/
theorem c2_failure_record_witness :
    get_ai_analysis (fun _ => ModelOutcome.exc "boom") "x" none =
      JVal.jobj [("error", JVal.jstr (failureMessageOf (ModelOutcome.exc "boom")))] ∧
    strStartsWith (failureMessageOf (ModelOutcome.exc "boom"))
      "AI analysis failed" = true ∧
    display_analysis_report
        (get_ai_analysis (fun _ => ModelOutcome.exc "boom") "x" none) =
      DisplayOut.errorShown
        (JVal.jstr (failureMessageOf (ModelOutcome.exc "boom"))) :=
  c2_failure_record (fun _ => ModelOutcome.exc "boom") "x" none
    (Or.inl ⟨"boom", rfl⟩)

/-- C1 counterexample: the model response `42` is valid JSON, so the call and
parse succeed, yet the pipeline's outcome is neither a failure record nor a
success record — the renderer faults (`"error" in 42` raises `TypeError`). -/
theorem c1_counterexample :
    runRequest (fun _ => ModelOutcome.ok "42") (AnalysisRequest.text "hi") =
      DisplayOut.crash ∧
    isFailureRec (runRequest (fun _ => ModelOutcome.ok "42")
      (AnalysisRequest.text "hi")) = false ∧
    isSuccessRec (runRequest (fun _ => ModelOutcome.ok "42")
      (AnalysisRequest.text "hi")) = false :=
  ⟨rfl, rfl, rfl⟩

/-- C1 (amended): for every request variant, every failure of the call and
every model response that parses as a JSON object (with a renderable
`red_flags`) yields exactly one of a failure record and a success record;
a response parsing to a non-object JSON value (or to an object whose truthy
`red_flags` is not iterable) yields neither — rendering faults instead. -/
theorem c1_exactly_one (gen : List GenPart → ModelOutcome) (req : AnalysisRequest)
    (h : goodModelOutcome (gen (requestContent (reqPrompt req) (reqImage req)))) :
    Bool.xor (isFailureRec (runRequest gen req))
      (isSuccessRec (runRequest gen req)) = true := by
  unfold runRequest get_ai_analysis
  unfold goodModelOutcome at h
  cases hg : gen (requestContent (reqPrompt req) (reqImage req)) with
  | exc e => rfl
  | ok txt =>
    rw [hg] at h
    cases hp : parseJson (stripFences txt) with
    | none => simp only [hp]; rfl
    | some v =>
      simp only [hp] at h ⊢
      cases v with
      | jobj kvs =>
        rcases h with hk | hr
        · obtain ⟨w, -, hd⟩ := display_obj_error hk
          rw [hd]
          rfl
        · by_cases hk : hasKey kvs "error" = true
          · obtain ⟨w, -, hd⟩ := display_obj_error hk
            rw [hd]
            rfl
          · have hk' : hasKey kvs "error" = false := by
              cases hke : hasKey kvs "error"
              · rfl
              · exact absurd hke hk
            rw [display_obj_noerror hk']
            obtain ⟨fo, hfo⟩ := flagsOut_isSome_of_renderable hr
            rw [hfo]
            rfl
      | jnull => exact h.elim
      | jbool b => exact h.elim
      | jint n => exact h.elim
      | jfloat lit => exact h.elim
      | jstr s => exact h.elim
      | jarr xs => exact h.elim

/-- C1 witness: a text request with the model answering the empty JSON object
yields exactly one outcome (a success record). -/
theorem c1_exactly_one_witness :
    Bool.xor
      (isFailureRec (runRequest (fun _ => ModelOutcome.ok "\x7b\x7d")
        (AnalysisRequest.text "hi")))
      (isSuccessRec (runRequest (fun _ => ModelOutcome.ok "\x7b\x7d")
        (AnalysisRequest.text "hi"))) = true :=
  c1_exactly_one (fun _ => ModelOutcome.ok "\x7b\x7d") (AnalysisRequest.text "hi")
    (Or.inr rfl)

/-- C6: a well-formed model response — a JSON object with all four keys, a
structured nonempty `red_flags` sequence of objects carrying `flag_type` and
`description`, and no `error` key — yields a success record whose fields are
the response's values verbatim (modulo key renaming): the score, summary and
insight are the stored values unchanged, and each rendered flag pair is
exactly the entry's `flag_type` and `description` values. -/
theorem c6_verbatim_roundtrip (gen : List GenPart → ModelOutcome) (p : String)
    (img : Option ImageData) (txt : String) (kvs : List (String × JVal))
    (sc sm ei : JVal) (l : List JVal)
    (hg : gen (requestContent p img) = ModelOutcome.ok txt)
    (hp : parseJson (stripFences txt) = some (JVal.jobj kvs))
    (he : hasKey kvs "error" = false)
    (hsc : dictFind kvs "credibility_score" = some sc)
    (hsm : dictFind kvs "summary" = some sm)
    (hrf : dictFind kvs "red_flags" = some (JVal.jarr l))
    (hei : dictFind kvs "educational_insight" = some ei)
    (hl : l ≠ [])
    (hstruct : ∀ x ∈ l, ∃ fkvs, x = JVal.jobj fkvs ∧
      hasKey fkvs "flag_type" = true ∧ hasKey fkvs "description" = true) :
    display_analysis_report (get_ai_analysis gen p img) =
      DisplayOut.report sc sm (FlagsRender.flagList (l.map renderFlagTotal)) ei ∧
    (∀ x fkvs ft ds, x = JVal.jobj fkvs →
      dictFind fkvs "flag_type" = some ft →
      dictFind fkvs "description" = some ds →
      renderFlagTotal x = (ft, ds)) := by
  constructor
  · have hga : get_ai_analysis gen p img = JVal.jobj kvs := by
      unfold get_ai_analysis
      rw [hg]
      simp only [hp]
    rw [hga, display_obj_noerror he]
    rw [dictGet_of_find hrf, dictGet_of_find hsc, dictGet_of_find hsm,
      dictGet_of_find hei]
    have hall : ∀ x ∈ l, isObjOrStr x = true := by
      intro x hx
      obtain ⟨fkvs, rfl, -, -⟩ := hstruct x hx
      rfl
    cases l with
    | nil => exact absurd rfl hl
    | cons x xs =>
      rw [flagsOut_jarr_cons, filterMap_renderFlag_all hall]
  · intro x fkvs ft ds hx hft hds
    subst hx
    unfold renderFlagTotal renderFlag
    simp only [Option.getD_some]
    rw [dictGet_of_find hft, dictGet_of_find hds]

set_option maxRecDepth 100000 in
/-- C6 witness: the spec's stubbed lottery-scam scenario — all four keys
present with one structured red flag — renders as a success record with score
2, summary "Scam", one Urgency flag and the insight text, all verbatim. -/
theorem c6_verbatim_roundtrip_witness :
    display_analysis_report
        (get_ai_analysis
          (fun _ => ModelOutcome.ok
            "\x7b\"credibility_score\": 2, \"summary\": \"Scam\", \"red_flags\": [\x7b\"flag_type\":\"Urgency\",\"description\":\"Pressure to act fast\"\x7d], \"educational_insight\": \"Lottery scams...\"\x7d")
          "CONGRATS! You won..." none) =
      DisplayOut.report (JVal.jint 2) (JVal.jstr "Scam")
        (FlagsRender.flagList [(JVal.jstr "Urgency", JVal.jstr "Pressure to act fast")])
        (JVal.jstr "Lottery scams...") :=
  (c6_verbatim_roundtrip
    (fun _ => ModelOutcome.ok
      "\x7b\"credibility_score\": 2, \"summary\": \"Scam\", \"red_flags\": [\x7b\"flag_type\":\"Urgency\",\"description\":\"Pressure to act fast\"\x7d], \"educational_insight\": \"Lottery scams...\"\x7d")
    "CONGRATS! You won..." none
    "\x7b\"credibility_score\": 2, \"summary\": \"Scam\", \"red_flags\": [\x7b\"flag_type\":\"Urgency\",\"description\":\"Pressure to act fast\"\x7d], \"educational_insight\": \"Lottery scams...\"\x7d"
    [("credibility_score", JVal.jint 2), ("summary", JVal.jstr "Scam"),
      ("red_flags", JVal.jarr [JVal.jobj [("flag_type", JVal.jstr "Urgency"),
        ("description", JVal.jstr "Pressure to act fast")]]),
      ("educational_insight", JVal.jstr "Lottery scams...")]
    (JVal.jint 2) (JVal.jstr "Scam") (JVal.jstr "Lottery scams...")
    [JVal.jobj [("flag_type", JVal.jstr "Urgency"),
      ("description", JVal.jstr "Pressure to act fast")]]
    rfl rfl rfl rfl rfl rfl rfl (List.cons_ne_nil _ _)
    (by
      intro x hx
      rcases List.mem_cons.mp hx with rfl | hx'
      · exact ⟨[("flag_type", JVal.jstr "Urgency"),
          ("description", JVal.jstr "Pressure to act fast")], rfl, rfl, rfl⟩
      · exact absurd hx' (List.not_mem_nil x))).1
